import Mathlib

/-!
Shallow embedding of the Hypercave data-synchronization core
(gateway client, caches, metadata resolver, balance-preview decoder,
reconciliation) translated from the JavaScript sources
(`src/gateway.js`-style module, `src/cache.js`, `src/ui.js`,
`src/main.js`, `src/utils.js`, `src/config.js`), together with theorems
checking the natural-language specification against it.

Modelling conventions:
- JavaScript `undefined`/`null` object fields become `Option`;
  where the code distinguishes an *absent* key from a key holding
  `null` (the `caveBalancesData` map), the value type is
  `Option (Option _)` with outer `none` = absent and `some none` = null.
- JS decimal-number values (`parseFloat` results) are modelled as `ℚ`.
- JS string falsiness (`x || d` treats `""` like absent) is modelled by
  `jsOr` / `jsOrNull` / `jsTruthyStr`.
- Stateful code becomes explicit state passing; `Date.now()` is an
  explicit `now : ℕ` parameter; network calls become oracle functions
  passed as parameters, and each function also returns the list of
  requests it issued where a claim is about the requests.
- The two caches of `src/cache.js` differ observably: the in-memory
  `sessionCache` keeps the live number `Infinity` in its entries, while
  the localStorage-backed `cache` JSON-serializes entries, turning an
  `Infinity` expiry into `null`; they are modelled separately
  (`KVCache` vs `DCache`).
- Unbounded `do…while` pagination loops take a fuel parameter and
  return `none` when fuel runs out (the JS would still be looping).
-/

/-- JS truthiness of a nullable string: `null`/`undefined` and `""` are falsy. -/
def jsTruthyStr : Option String → Bool
  | none => false
  | some s => s ≠ ""

/-- JS `v || d` for a nullable string `v` and string default `d`. -/
def jsOr (v : Option String) (d : String) : String :=
  match v with
  | none => d
  | some s => if s = "" then d else s

/-- JS `v || null` for a nullable string: empty strings collapse to `null`. -/
def jsOrNull (v : Option String) : Option String :=
  match v with
  | none => none
  | some s => if s = "" then none else some s

/-- `shortenAddress` from `src/utils.js`: keep a prefix of `startLen`
characters and a suffix of `endLen` characters joined by `"..."`,
returning the address unchanged when it is empty or short enough. -/
def shortenAddress (address : String) (startLen : Nat := 12) (endLen : Nat := 6) : String :=
  if address = "" ∨ address.length ≤ startLen + endLen + 3 then address
  else address.take startLen ++ "..." ++ address.takeRight endLen

/-! ### Session cache (the in-memory `sessionCache` in `src/cache.js`)

`sessionCache` stores `{value, expiry}` entries live in a `Map`: the
number `Infinity` (`ETime.inf`) survives as-is, so its
`expiry !== Infinity` guard really makes such entries never expire.
The localStorage-backed durable `cache` has the same get/set/remove
source code but serializes entries through JSON, which changes its
effective expiry semantics — it is modelled separately below
(`DCache`/`dcacheGet`/`dcacheSet`). -/

/-- A timestamp that may be `Infinity` (the `expiry` field of a cache entry). -/
inductive ETime where
  | fin (t : Nat)
  | inf
deriving DecidableEq

/-- Whether an entry is expired at time `now`: JS `expiry !== Infinity && now > expiry`. -/
def ETime.expired (now : Nat) : ETime → Bool
  | .inf => false
  | .fin t => decide (t < now)

/-- `now + ttlMs`, where the TTL may be `Infinity`. -/
def addTtl (now : Nat) : ETime → ETime
  | .inf => .inf
  | .fin t => .fin (now + t)

/-- One stored cache entry `{value, expiry}`. -/
structure CacheEntry (α : Type) where
  value : α
  expiry : ETime
deriving DecidableEq

/-- A key/value cache (both the durable `cache` and the `sessionCache`). -/
def KVCache (α : Type) : Type := String → Option (CacheEntry α)

/-- The empty cache. -/
def emptyCache (α : Type) : KVCache α := fun _ => none

/-- `get(key)` from `src/cache.js`: absent gives `null`; an expired entry
is purged and gives `null`; otherwise the stored value is returned.
Returns the (possibly purged) cache alongside the result. -/
def cacheGet {α : Type} (now : Nat) (c : KVCache α) (k : String) :
    Option α × KVCache α :=
  match c k with
  | none => (none, c)
  | some e =>
    if e.expiry.expired now then (none, fun x => if x = k then none else c x)
    else (some e.value, c)

/-- `set(key, value, ttlMs)` from `src/cache.js`: store `{value, expiry: now + ttl}`. -/
def cacheSet {α : Type} (now : Nat) (c : KVCache α) (k : String) (v : α)
    (ttl : ETime) : KVCache α :=
  fun x => if x = k then some ⟨v, addTtl now ttl⟩ else c x

/-- `remove(key)` from `src/cache.js`. -/
def cacheRemove {α : Type} (c : KVCache α) (k : String) : KVCache α :=
  fun x => if x = k then none else c x

/-! ### Balance-preview decoder (`parseBalancesFromReceipt`) -/

/-- One nested field of a receipt element (`element.fields[j]`); its
`value` may be absent. -/
structure RField where
  value : Option String
deriving DecidableEq

/-- One positional element of the structured return
(`programmatic_json.elements[i]`). -/
structure RElement where
  variant_id : Option String
  variant_name : Option String
  fields : Option (List RField)
deriving DecidableEq

/-- The structured return value of an output (`programmatic_json`). -/
structure ProgrammaticJson where
  elements : Option (List RElement)
  fields : Option (List RElement)
deriving DecidableEq

/-- One entry of `receipt.output`. -/
structure ROutput where
  programmatic_json : Option ProgrammaticJson
deriving DecidableEq

/-- A transaction-preview receipt. -/
structure Receipt where
  status : Option String
  output : Option (List ROutput)
deriving DecidableEq

/-- Whether an element is the `Some` variant: `variant_id === '1' || variant_name === 'Some'`. -/
def RElement.isSomeVariant (el : RElement) : Bool :=
  el.variant_id = some "1" ∨ el.variant_name = some "Some"

/-- `element.fields?.[0]?.value` — the first nested field's value, if any. -/
def RElement.firstFieldValue (el : RElement) : Option String :=
  match el.fields with
  | none => none
  | some fs =>
    match fs.head? with
    | none => none
    | some f => f.value

/-- The decoding loop of `parseBalancesFromReceipt`: walk the
address/element pairs in order, assigning `decimalValue || '0'` for
`Some` variants and leaving other keys untouched. -/
def applyElems : List (String × RElement) → (String → Option (Option String)) →
    String → Option (Option String)
  | [], bal => bal
  | (a, el) :: rest, bal =>
    applyElems rest
      (if el.isSomeVariant then
        fun x => if x = a then some (some (jsOr el.firstFieldValue "0")) else bal x
      else bal)

/-- The initial `balances` object of `parseBalancesFromReceipt`: every
queried address is set to `null` (`some none`); other keys are absent
(`none`). -/
def initBalances (resourceAddresses : List String) : String → Option (Option String) :=
  fun a => if a ∈ resourceAddresses then some none else none

/-- `programmaticJson.elements || programmaticJson.fields || []`: a
present array (even empty) is truthy, so `elements` wins when defined. -/
def pjElements (pj : ProgrammaticJson) : List RElement :=
  match pj.elements with
  | some es => es
  | none => pj.fields.getD []

/-- The `if (!programmaticJson) return balances` guard of
`parseBalancesFromReceipt` followed by the decoding loop. -/
def parseBalancesPj (resourceAddresses : List String) :
    Option ProgrammaticJson → String → Option (Option String)
  | none => initBalances resourceAddresses
  | some pj =>
    applyElems (resourceAddresses.zip (pjElements pj)) (initBalances resourceAddresses)

/-- The `outputs.length === 0` / `lastOutput?.programmatic_json` guard
steps of `parseBalancesFromReceipt` (its early returns become nested
cases). -/
def parseBalancesLast (resourceAddresses : List String) :
    Option ROutput → String → Option (Option String)
  | none => initBalances resourceAddresses
  | some lastOutput =>
    parseBalancesPj resourceAddresses lastOutput.programmatic_json

/-- `parseBalancesFromReceipt(receipt, resourceAddresses)` from the
gateway module: initialize every queried address to `null`; on a
non-`Succeeded` status, an empty output list, or a missing structured
return, return the all-null map; otherwise decode positionally from the
last output's structured return (the `outputs.length === 0` check plus
`outputs[outputs.length - 1]` is `getLast?`; the early returns become
the nested cases of `parseBalancesLast`/`parseBalancesPj`).  The result
is the JS object `balances` as a partial map: `none` means the key is
absent, `some none` means the key holds `null`. -/
def parseBalancesFromReceipt (receipt : Option Receipt) (resourceAddresses : List String) :
    String → Option (Option String) :=
  match receipt with
  | none => initBalances resourceAddresses
  | some r =>
    if r.status ≠ some "Succeeded" then initBalances resourceAddresses
    else parseBalancesLast resourceAddresses ((r.output.getD []).getLast?)

/-! ### Reconciliation (`ModalUI.updateCaveBalance` in `src/ui.js` and the
post-transaction cache invalidation in `handleTransaction`, `src/main.js`) -/

/-- Metadata passed along with a balance update (`{symbol, name, iconUrl}`). -/
structure CaveMeta where
  symbol : String
  name : String
  iconUrl : Option String
deriving DecidableEq

/-- The modal UI's in-memory snapshot state: `caveBalancesData` maps a
resource address to a balance (`some (some b)`), to `null`
(`some none`, meaning no record in the vault), or is absent (`none`);
`caveResourceMetadata` maps addresses to display metadata. Balance
strings are modelled by their numeric value in `ℚ`. -/
structure CaveState where
  caveBalancesData : String → Option (Option ℚ)
  caveResourceMetadata : String → Option CaveMeta

/-- `ModalUI.updateCaveBalance(resourceAddress, amountChange, metadata)`:
skip entirely when the snapshot has no entry (or a `null` entry) for the
address; otherwise store `max(0, current + change)` and, if metadata was
provided, record it. -/
def updateCaveBalance (resourceAddress : String) (amountChange : ℚ)
    (metadata : Option CaveMeta) (st : CaveState) : CaveState :=
  match st.caveBalancesData resourceAddress with
  | none => st
  | some none => st
  | some (some currentBalance) =>
    let newBalance := max 0 (currentBalance + amountChange)
    let st1 : CaveState :=
      { st with caveBalancesData :=
          fun x => if x = resourceAddress then some (some newBalance)
                   else st.caveBalancesData x }
    match metadata with
    | none => st1
    | some md =>
      { st1 with caveResourceMetadata :=
          fun x => if x = resourceAddress then some md
                   else st1.caveResourceMetadata x }

/-- Transaction direction (`mode === 'in'` / `mode === 'out'`). -/
inductive TxMode where
  | inCave
  | outCave
deriving DecidableEq

/-- A resource row of a submitted transaction. -/
structure TxResource where
  resourceAddress : String
  amount : ℚ
  symbol : String
  iconUrl : Option String

/-- The post-success reconciliation slice of `handleTransaction`
(`src/main.js`): on IN, bump every moved resource by `+amount` and
remove the `fungibles:<account>`, `nfts:<account>` and `cave_tokens`
session-cache keys; on OUT, bump by `-amount` and remove only the two
account keys. -/
def reconcileAfterTransaction {α : Type} (mode : TxMode) (accountAddress : String)
    (resources : List TxResource) (st : CaveState) (sc : KVCache α) :
    CaveState × KVCache α :=
  match mode with
  | .inCave =>
    let st' := resources.foldl
      (fun s r => updateCaveBalance r.resourceAddress r.amount
        (some ⟨r.symbol, r.symbol, r.iconUrl⟩) s) st
    let sc1 := cacheRemove sc ("fungibles:" ++ accountAddress)
    let sc2 := cacheRemove sc1 ("nfts:" ++ accountAddress)
    let sc3 := cacheRemove sc2 "cave_tokens"
    (st', sc3)
  | .outCave =>
    let st' := resources.foldl
      (fun s r => updateCaveBalance r.resourceAddress (-r.amount)
        (some ⟨r.symbol, r.symbol, r.iconUrl⟩) s) st
    let sc1 := cacheRemove sc ("fungibles:" ++ accountAddress)
    let sc2 := cacheRemove sc1 ("nfts:" ++ accountAddress)
    (st', sc2)

/-! ### Gateway HTTP client (`gatewayFetch`) -/

/-- A JS `Error` value as this code observes it: only a message string. -/
structure JsError where
  message : String
deriving DecidableEq

/-- The JSON body of a Gateway response, as far as `gatewayFetch` reads
it on the error path: an optional `message` field. -/
structure JsonBody where
  message : Option String
deriving DecidableEq

instance {ε α : Type} [DecidableEq ε] [DecidableEq α] : DecidableEq (Except ε α) :=
  fun x y =>
    match x, y with
    | .error a, .error b =>
      if h : a = b then isTrue (congrArg Except.error h)
      else isFalse (fun he => h (Except.error.inj he))
    | .ok a, .ok b =>
      if h : a = b then isTrue (congrArg Except.ok h)
      else isFalse (fun he => h (Except.ok.inj he))
    | .error _, .ok _ => isFalse (fun he => Except.noConfusion he)
    | .ok _, .error _ => isFalse (fun he => Except.noConfusion he)

/-- An HTTP response: its `ok` flag, `status` code, and the outcome of
`response.json()` (which may itself reject on a malformed body). -/
structure HttpResponse where
  ok : Bool
  status : Nat
  json : Except JsError JsonBody
deriving DecidableEq

/-- The outcome of one `fetch` call: a rejection (transport failure) or
a response. -/
inductive FetchOutcome where
  | reject (e : JsError)
  | resp (r : HttpResponse)
deriving DecidableEq

/-- `gatewayFetch(endpoint, body)` from the gateway module, over the
outcome of its single `fetch` call: a transport rejection propagates
as-is; a non-`ok` response throws
`new Error(errorData.message || "Gateway error: " + status)` where
`errorData` is the parsed JSON body or `{}` on parse failure; an `ok`
response returns `response.json()`.  (The rate limiter only delays the
call; it never changes the result and is not modelled.) -/
def gatewayFetch (outcome : FetchOutcome) : Except JsError JsonBody :=
  match outcome with
  | .reject e => .error e
  | .resp r =>
    if r.ok then r.json
    else
      let errorMessage : Option String :=
        match r.json with
        | .ok body => body.message
        | .error _ => none
      .error ⟨jsOr errorMessage ("Gateway error: " ++ toString r.status)⟩

/-- `gatewayFetch` over a stream of successive fetch outcomes
(`attempts n` is what the `n`-th fetch call would produce): the code
performs exactly one fetch, so only `attempts 0` is consulted. -/
def gatewayFetchStream (attempts : Nat → FetchOutcome) : Except JsError JsonBody :=
  gatewayFetch (attempts 0)

/-! ### Metadata resolver (`extractMetadata`, `getResourceMetadata`) -/

/-- A typed metadata value wrapper (`item.value.typed`); its `value` may
be absent. -/
structure TypedValue where
  value : Option String
deriving DecidableEq

/-- The `value` wrapper of a metadata item (`item.value`). -/
structure MetaValue where
  typed : Option TypedValue
deriving DecidableEq

/-- One key/value metadata item of a Gateway `explicit_metadata.items` array. -/
structure MdItem where
  key : String
  value : Option MetaValue
deriving DecidableEq

/-- The `explicit_metadata` wrapper of an entity-details item. -/
structure ExplicitMetadata where
  items : Option (List MdItem)
deriving DecidableEq

/-- The `details` record of an entity-details item (`type`,
`divisibility` for fungible resources). -/
structure EntityDetails where
  type : Option String
  divisibility : Option Nat
deriving DecidableEq

/-- One item of a `/state/entity/details` response. -/
structure MetaItem where
  address : String
  explicit_metadata : Option ExplicitMetadata
  details : Option EntityDetails
deriving DecidableEq

/-- The resolved `resourceData` record built by `getResourceMetadata`. -/
structure ResourceData where
  address : String
  name : String
  symbol : String
  iconUrl : Option String
  description : String
  entityType : Option String
  divisibility : Nat
deriving DecidableEq

/-- The request body `getResourceMetadata` sends to
`/state/entity/details` (addresses, aggregation level, and the explicit
opt-in metadata field names). -/
structure EntityDetailsRequest where
  addresses : List String
  aggregation_level : String
  explicit_metadata : List String
deriving DecidableEq

/-- `extractMetadata(items)` from the gateway module: keep the pairs
whose `value.typed` exists and whose `typed.value` is defined; later
items overwrite earlier ones with the same key. -/
def extractMetadata : List MdItem → (String → Option String)
  | [] => fun _ => none
  | item :: rest =>
    let res := fun x =>
      match item.value with
      | none => none
      | some mv =>
        match mv.typed with
        | none => none
        | some tv =>
          match tv.value with
          | none => none
          | some v => if x = item.key then some v else none
    fun x =>
      match extractMetadata rest x with
      | some v => some v
      | none => res x

/-- The `resourceData` record built from one response item inside
`getResourceMetadata`: metadata values with falsy fallbacks, the
address-shortening display-name fallback, and divisibility defaulting
to 18 unless the details record is a `FungibleResource` declaring one. -/
def mkResourceData (item : MetaItem) : ResourceData :=
  let meta := extractMetadata ((item.explicit_metadata.bind (·.items)).getD [])
  let divisibility :=
    match item.details with
    | some d => if d.type = some "FungibleResource" then d.divisibility.getD 18 else 18
    | none => 18
  { address := item.address
    name := jsOr (meta "name") (shortenAddress item.address 15 6)
    symbol := jsOr (meta "symbol") ""
    iconUrl := jsOrNull (meta "icon_url")
    description := jsOr (meta "description") ""
    entityType := item.details.bind (·.type)
    divisibility := divisibility }

/-! ### Durable cache (the localStorage-backed `cache` in `src/cache.js`)

Unlike the in-memory `sessionCache` (a `Map` holding live values, where
an `Infinity` expiry really never expires — `KVCache` above), the
durable cache `JSON.stringify`s each `{value, expiry}` entry into
localStorage.  JSON has no representation for `Infinity`: an expiry of
`Date.now() + Infinity` serializes as `null`.  On `get`, the
deserialized expiry is therefore a finite number or `null`, never
`Infinity`, so the guard `expiry !== Infinity && Date.now() > expiry`
reduces to the comparison alone, with `null` coercing to 0 — an entry
written with the shipped `Infinity` TTL is treated as expired (and
purged) by every later `get` at a positive time. -/

/-- A durable-cache entry's expiry as it comes back from the JSON round
trip: a finite timestamp, or `null` (what `JSON.stringify` makes of
`Infinity`). -/
inductive StoredExpiry where
  | num (t : Nat)
  | null
deriving DecidableEq

/-- Serialization of the in-memory expiry `now + ttl` into JSON and
back: finite numbers survive, `Infinity` becomes `null`. -/
def jsonExpiry : ETime → StoredExpiry
  | .fin t => .num t
  | .inf => .null

/-- The JS guard `expiry !== Infinity && Date.now() > expiry` on a
deserialized expiry: it is never `Infinity`, so only the comparison
remains, and `null` compares as 0. -/
def StoredExpiry.expired (now : Nat) : StoredExpiry → Bool
  | .num t => decide (t < now)
  | .null => decide (0 < now)

/-- One durable-cache entry as read back from localStorage. -/
structure DEntry where
  value : ResourceData
  expiry : StoredExpiry
deriving DecidableEq

/-- The durable (localStorage-backed) cache holding resource metadata. -/
def DCache : Type := String → Option DEntry

/-- The empty durable cache. -/
def emptyDCache : DCache := fun _ => none

/-- `cache.get(key)` from `src/cache.js` (durable store): absent gives
`null`; an entry whose deserialized expiry is past is purged and gives
`null`; otherwise the stored value is returned.  Returns the (possibly
purged) cache alongside the result. -/
def dcacheGet (now : Nat) (c : DCache) (k : String) : Option ResourceData × DCache :=
  match c k with
  | none => (none, c)
  | some e =>
    if e.expiry.expired now then (none, fun x => if x = k then none else c x)
    else (some e.value, c)

/-- `cache.set(key, value, ttlMs)` from `src/cache.js` (durable store):
store `{value, expiry: now + ttl}` through the JSON round trip.  (A
storage failure would degrade silently; the write itself is what is
modelled.) -/
def dcacheSet (now : Nat) (c : DCache) (k : String) (v : ResourceData)
    (ttl : ETime) : DCache :=
  fun x => if x = k then some ⟨v, jsonExpiry (addTtl now ttl)⟩ else c x

/-- The cache-partition loop of `getResourceMetadata`: each address is
looked up under `resource:<addr>`; hits go into `results`, misses are
pushed onto `toFetch`; the cache is threaded because an expired `get`
purges its entry. -/
def partitionCached (now : Nat) : List String → DCache →
    (String → Option ResourceData) → List String →
    (String → Option ResourceData) × List String × DCache
  | [], c, results, toFetch => (results, toFetch, c)
  | addr :: rest, c, results, toFetch =>
    match (dcacheGet now c ("resource:" ++ addr)).1 with
    | some v =>
      partitionCached now rest (dcacheGet now c ("resource:" ++ addr)).2
        (fun x => if x = addr then some v else results x) toFetch
    | none =>
      partitionCached now rest (dcacheGet now c ("resource:" ++ addr)).2 results
        (toFetch ++ [addr])

/-- `c` behaves like the reference cache `cache` at time `now`: it
agrees on every key `cache` would hit, and misses every key `cache`
would miss.  The partition loop of `getResourceMetadata` preserves this
relation as its `get` calls purge expired entries. -/
def cacheAgrees (now : Nat) (cache c : DCache) : Prop :=
  ∀ k, ((dcacheGet now cache k).1.isSome → c k = cache k) ∧
    ((dcacheGet now cache k).1 = none → (dcacheGet now c k).1 = none)

/-- The response-processing loop of `getResourceMetadata`: for each
returned item, build its `resourceData`, record it in `results`, and
write it to the durable cache under `resource:<address>` with the
resource-metadata TTL (`Infinity` per `src/config.js` — which the JSON
round trip turns into a `null` expiry). -/
def processItems (now : Nat) : List MetaItem → (String → Option ResourceData) →
    DCache → (String → Option ResourceData) × DCache
  | [], results, c => (results, c)
  | item :: rest, results, c =>
    let rd := mkResourceData item
    processItems now rest
      (fun x => if x = item.address then some rd else results x)
      (dcacheSet now c ("resource:" ++ item.address) rd ETime.inf)

/-- `getResourceMetadata(addresses)` from the gateway module:
partition into cached and uncached; if any address is uncached, issue
exactly one batched `/state/entity/details` request for the uncached
addresses (with `aggregation_level: "Global"` and explicit opt-in
metadata fields name/symbol/icon_url/description) and write every
returned item back to the durable cache.  Returns the results map, the
updated cache, and the list of Gateway requests issued. -/
def getResourceMetadata (now : Nat) (gw : EntityDetailsRequest → List MetaItem)
    (cache : DCache) (addresses : List String) :
    (String → Option ResourceData) × DCache × List EntityDetailsRequest :=
  let parts := partitionCached now addresses cache (fun _ => none) []
  let results := parts.1
  let toFetch := parts.2.1
  let c1 := parts.2.2
  if toFetch = [] then (results, c1, [])
  else
    let req : EntityDetailsRequest :=
      ⟨toFetch, "Global", ["name", "symbol", "icon_url", "description"]⟩
    let processed := processItems now (gw req) results c1
    (processed.1, processed.2, [req])

/-! ### Account fungibles (`getAccountFungibles`) -/

/-- The request body of one `/state/entity/page/fungibles/` page call;
the `cursor` field is present only when the JS `cursor` variable is
truthy. -/
structure FungPageRequest where
  address : String
  aggregation_level : String
  cursor : Option String
deriving DecidableEq

/-- One item of a fungibles page response. -/
structure FungPageItem where
  resource_address : String
  amount : String
deriving DecidableEq

/-- One fungibles page response (`items`, `next_cursor`). -/
structure FungPage where
  items : List FungPageItem
  next_cursor : Option String
deriving DecidableEq

/-- The holding record pushed per item (`{resourceAddress, amount}`). -/
structure Holding where
  resourceAddress : String
  amount : String
deriving DecidableEq

/-- The request built at the top of each iteration of the
`do…while` loop in `getAccountFungibles`: `cursor` is attached only
when truthy (`if (cursor) requestBody.cursor = cursor`). -/
def mkFungReq (accountAddress : String) (cursor : Option String) : FungPageRequest :=
  ⟨accountAddress, "Global", if jsTruthyStr cursor then cursor else none⟩

/-- The `do…while (cursor)` pagination loop of `getAccountFungibles`:
accumulate every page's items, re-issuing with the previous response's
`next_cursor` while that cursor is truthy.  Also returns the list of
requests issued, in order; `none` means the fuel ran out (the JS loop
would still be running). -/
def fungFetchLoop (gw : FungPageRequest → FungPage) (accountAddress : String) :
    Nat → Option String → Option (List Holding × List FungPageRequest)
  | 0, _ => none
  | fuel + 1, cursor =>
    let req := mkFungReq accountAddress cursor
    let page := gw req
    let these := page.items.map (fun it => Holding.mk it.resource_address it.amount)
    if jsTruthyStr page.next_cursor then
      match fungFetchLoop gw accountAddress fuel page.next_cursor with
      | none => none
      | some (items, reqs) => some (these ++ items, req :: reqs)
    else
      some (these, [req])

/-- A holding merged with its metadata
(`{...item, ...metadata[item.resourceAddress]}`): spreading an absent
metadata record is a no-op, so `meta` is `none` exactly when the
metadata map has no entry for the resource address. -/
structure MergedHolding where
  resourceAddress : String
  amount : String
  meta : Option ResourceData
deriving DecidableEq

/-- `CONFIG.cacheTtl.accountResources` (`Infinity` in `src/config.js`). -/
def accountResourcesTtl : ETime := ETime.inf

/-- `getAccountFungibles(accountAddress)` from the gateway module:
serve from the session cache under `fungibles:<account>` when present;
otherwise page through the fungibles endpoint, resolve metadata for the
collected resource addresses, merge, store in the session cache, and
return.  Also returns both request traces. -/
def getAccountFungibles (now fuel : Nat) (gwPages : FungPageRequest → FungPage)
    (gwDetails : EntityDetailsRequest → List MetaItem)
    (scache : KVCache (List MergedHolding)) (dcache : DCache) (accountAddress : String) :
    Option (List MergedHolding × KVCache (List MergedHolding) × DCache ×
      List FungPageRequest × List EntityDetailsRequest) :=
  match (cacheGet now scache ("fungibles:" ++ accountAddress)).1 with
  | some cached =>
    some (cached, (cacheGet now scache ("fungibles:" ++ accountAddress)).2, dcache, [], [])
  | none =>
    match fungFetchLoop gwPages accountAddress fuel none with
    | none => none
    | some (items, pageReqs) =>
      let addresses := items.map (·.resourceAddress)
      let md := getResourceMetadata now gwDetails dcache addresses
      let result := items.map (fun it =>
        MergedHolding.mk it.resourceAddress it.amount (md.1 it.resourceAddress))
      some (result,
        cacheSet now (cacheGet now scache ("fungibles:" ++ accountAddress)).2
          ("fungibles:" ++ accountAddress) result accountResourcesTtl,
        md.2.1, pageReqs, md.2.2)

/-! ### Vault token discovery (`getAllCaveTokens`) -/

/-- The request body of one `/state/key-value-store/keys` page call. -/
structure KvsRequest where
  key_value_store_address : String
  limit_per_page : Nat
  cursor : Option String
deriving DecidableEq

/-- The decoded structure of one KVS key
(`item.key.programmatic_json`). -/
structure KvsKeyData where
  kind : Option String
  type_name : Option String
  value : Option String
deriving DecidableEq

/-- The `key` wrapper of a KVS item. -/
structure KvsKey where
  programmatic_json : Option KvsKeyData
deriving DecidableEq

/-- One item of a KVS keys page response. -/
structure KvsItem where
  key : Option KvsKey
deriving DecidableEq

/-- One KVS keys page response. -/
structure KvsPage where
  items : Option (List KvsItem)
  next_cursor : Option String
deriving DecidableEq

/-- `CONFIG.caveKvsAddress` from `src/config.js`. -/
def caveKvsAddress : String :=
  "internal_keyvaluestore_tdx_2_1kr0vu2yjfkj2dnu8vvhk4h5g9ef8l6g2u2ys92eu44ya9n9a8ru7hn"

/-- The per-item key decoding of `getAllCaveTokens`: accept a key only
when its structured encoding is a `Reference` of type `ResourceAddress`
with a truthy value; add it to the set (JS `Set` keeps insertion order
and deduplicates); anything else is skipped. -/
def parseKvsItem (acc : List String) (item : KvsItem) : List String :=
  match item.key.bind (·.programmatic_json) with
  | none => acc
  | some keyData =>
    if keyData.kind = some "Reference" ∧ keyData.type_name = some "ResourceAddress" then
      match keyData.value with
      | none => acc
      | some v => if v = "" then acc else if v ∈ acc then acc else acc ++ [v]
    else acc

/-- The `do…while (cursor)` pagination loop inside `getAllCaveTokens`'s
`try` block: each page request may fail (the gateway call throws); a
failure aborts the loop with that error.  `none` means the fuel ran
out. -/
def caveKeysLoop (gw : KvsRequest → Except JsError KvsPage) :
    Nat → Option String → List String → Option (Except JsError (List String))
  | 0, _, _ => none
  | fuel + 1, cursor, acc =>
    let req : KvsRequest := ⟨caveKvsAddress, 100, if jsTruthyStr cursor then cursor else none⟩
    match gw req with
    | .error e => some (.error e)
    | .ok page =>
      let acc' := (page.items.getD []).foldl parseKvsItem acc
      if jsTruthyStr page.next_cursor then caveKeysLoop gw fuel page.next_cursor acc'
      else some (.ok acc')

/-- `getAllCaveTokens()` from the gateway module: serve from the session
cache under `cave_tokens` when present; otherwise page through the KVS
keys endpoint collecting resource addresses.  The whole loop sits in a
`try…catch` that returns `[]` on any error (without writing the session
cache); on success the result is cached and returned. -/
def getAllCaveTokens (now fuel : Nat) (gw : KvsRequest → Except JsError KvsPage)
    (scache : KVCache (List String)) :
    Option (List String × KVCache (List String)) :=
  match cacheGet now scache "cave_tokens" with
  | (some cached, sc') => some (cached, sc')
  | (none, sc') =>
    match caveKeysLoop gw fuel none [] with
    | none => none
    | some (.error _) => some ([], sc')
    | some (.ok result) =>
      some (result, cacheSet now sc' "cave_tokens" result accountResourcesTtl)

/-! ### Cursor chains for the pagination protocol -/

/-- A server/cursor chain for the fungibles pagination loop: starting
from JS cursor state `c`, the server answers the induced requests with
the pages `ps` in sequence; every non-final page carries a non-null,
non-empty `next_cursor` leading to the next page, and the final page
carries a falsy (null/absent/empty) one. -/
inductive FungChain (gw : FungPageRequest → FungPage) (accountAddress : String) :
    Option String → List FungPage → Prop where
  | last : ∀ {c p}, gw (mkFungReq accountAddress c) = p →
      jsTruthyStr p.next_cursor = false → FungChain gw accountAddress c [p]
  | cons : ∀ {c p c' ps}, gw (mkFungReq accountAddress c) = p →
      p.next_cursor = some c' → c' ≠ "" →
      FungChain gw accountAddress (some c') ps →
      FungChain gw accountAddress c (p :: ps)

/-- The requests the pagination loop issues along a page chain: the
first uses the starting cursor state (omitted when falsy, by
`mkFungReq`), and each subsequent request passes the previous
response's `next_cursor`. -/
def chainReqs (accountAddress : String) : Option String → List FungPage → List FungPageRequest
  | _, [] => []
  | c, p :: ps => mkFungReq accountAddress c :: chainReqs accountAddress p.next_cursor ps

/-! ### Concrete fixtures used by witnesses and counterexamples -/

/-- The receipt of the C1 example: status `Succeeded`, one output whose
structured return has a `Some` element carrying `"42.5"` at position 0
and a `None` element at position 1. -/
def c1ExampleReceipt : Receipt :=
  { status := some "Succeeded"
    output := some [⟨some ⟨some [
      ⟨some "1", some "Some", some [⟨some "42.5"⟩]⟩,
      ⟨some "0", some "None", none⟩], none⟩⟩] }

/-- A resource address longer than the 24-character shortening
threshold. -/
def c2Address : String := "resource_tdx_2_1abcdefghijklmnopqrstuvwxyz"

/-- An entity-details item for `c2Address` carrying no metadata at all. -/
def c2ItemNoName : MetaItem := ⟨c2Address, none, none⟩

/-- An entity-details item for `c2Address` carrying an explicit
`name = "Gold"`. -/
def c2ItemNamed : MetaItem :=
  ⟨c2Address, some ⟨some [⟨"name", some ⟨some ⟨some "Gold"⟩⟩⟩]⟩, none⟩

/-- A gateway whose details response has no name metadata. -/
def c2GwFirst : EntityDetailsRequest → List MetaItem := fun _ => [c2ItemNoName]

/-- A gateway whose details response now has an explicit name. -/
def c2GwSecond : EntityDetailsRequest → List MetaItem := fun _ => [c2ItemNamed]

/-- A gateway on which every KVS page request fails. -/
def c6FailingGw : KvsRequest → Except JsError KvsPage := fun _ => .error ⟨"network down"⟩

/-- A transport failure whose message happens to read like a Gateway
status message. -/
def c7TransportOutcome : FetchOutcome := .reject ⟨"Gateway error: 500"⟩

/-- A Gateway-reported 500 with an unparseable error body. -/
def c7GatewayOutcome : FetchOutcome := .resp ⟨false, 500, .error ⟨"invalid json"⟩⟩

/-- A details item for the uncached `res_3`, a fungible declaring
divisibility 0. -/
def c8Item3 : MetaItem := ⟨"res_3", none, some ⟨some "FungibleResource", some 0⟩⟩

/-- A gateway answering a batch for `res_3` with `c8Item3` and anything
else with an empty item list. -/
def c8Gw : EntityDetailsRequest → List MetaItem := fun req =>
  if req.addresses = ["res_3"] then [c8Item3] else []

/-- A server whose first page carries the non-null but *empty*
`next_cursor = ""` and whose page at any explicit cursor is final. -/
def c9EmptyCursorGw : FungPageRequest → FungPage := fun req =>
  match req.cursor with
  | none => ⟨[⟨"resource_a", "1"⟩], some ""⟩
  | some _ => ⟨[⟨"resource_b", "2"⟩], none⟩

/-- A server with a well-formed two-page chain linked by `"cursor1"`. -/
def c9GoodGw : FungPageRequest → FungPage := fun req =>
  match req.cursor with
  | none => ⟨[⟨"res_p1", "1"⟩], some "cursor1"⟩
  | some c => if c = "cursor1" then ⟨[⟨"res_p2", "2"⟩], none⟩ else ⟨[], none⟩

/-- A fungibles server returning a single page holding `res_x`. -/
def c10GwPages : FungPageRequest → FungPage := fun _ => ⟨[⟨"res_x", "5"⟩], none⟩

/-- A details gateway that omits every requested address. -/
def c10GwDetails : EntityDetailsRequest → List MetaItem := fun _ => []

/-! ## Theorems -/

/-- How `updateCaveBalance` acts on the balances map: for a known
balance `b` the address gets `max 0 (b + c)`; otherwise nothing
changes. -/
theorem updateCaveBalance_balances (a : String) (c : ℚ) (md : Option CaveMeta)
    (st : CaveState) (x : String) :
    (updateCaveBalance a c md st).caveBalancesData x =
      match st.caveBalancesData a with
      | some (some b) =>
        if x = a then some (some (max 0 (b + c))) else st.caveBalancesData x
      | _ => st.caveBalancesData x := by
  unfold updateCaveBalance
  rcases hcase : st.caveBalancesData a with _ | (_ | b)
  · rfl
  · rfl
  · cases md <;> rfl

/-- Claim C3: for every resource address with a known in-memory snapshot
balance, `updateCaveBalance` sets the stored balance to the maximum of 0
and (current balance + signed change); consequently no sequence of
IN/OUT updates ever turns a non-negative snapshot negative; and starting
from balance 5, an OUT of 5 followed by an OUT of 3 leaves the stored
balance exactly 0. -/
theorem c3_updateCaveBalance_clamps :
    (∀ (st : CaveState) (a : String) (b c : ℚ) (md : Option CaveMeta),
      st.caveBalancesData a = some (some b) →
      (updateCaveBalance a c md st).caveBalancesData a = some (some (max 0 (b + c))) ∧
        (0:ℚ) ≤ max 0 (b + c)) ∧
    (∀ (ups : List (String × ℚ × Option CaveMeta)) (st : CaveState),
      (∀ x v, st.caveBalancesData x = some (some v) → (0:ℚ) ≤ v) →
      ∀ x v,
        (ups.foldl (fun s u => updateCaveBalance u.1 u.2.1 u.2.2 s) st).caveBalancesData x =
          some (some v) → (0:ℚ) ≤ v) ∧
    ((updateCaveBalance "r" (-3) none (updateCaveBalance "r" (-5) none
        ⟨fun x => if x = "r" then some (some 5) else none, fun _ => none⟩)).caveBalancesData "r" =
      some (some 0)) := by
  refine ⟨?_, ?_, ?_⟩
  · intro st a b c md h
    refine ⟨?_, le_max_left 0 _⟩
    rw [updateCaveBalance_balances, h]
    simp
  · intro ups
    induction ups with
    | nil => intro st h x v hx; exact h x v hx
    | cons u rest ih =>
      obtain ⟨ua, uc, umd⟩ := u
      intro st h x v
      simp only [List.foldl_cons]
      apply ih
      intro y w hy
      rw [updateCaveBalance_balances] at hy
      split at hy
      · by_cases hya : y = ua
        · rw [if_pos hya] at hy
          obtain rfl : max 0 (_ + uc) = w := by
            injection hy with h1
            injection h1
          exact le_max_left 0 _
        · rw [if_neg hya] at hy
          exact h y w hy
      · exact h y w hy
  · rw [updateCaveBalance_balances]
    rw [updateCaveBalance_balances]
    norm_num

/-- Witness for C3 at a concrete input. -/
theorem c3_witness :
    (updateCaveBalance "r" (-5) none
        ⟨fun x => if x = "r" then some (some 5) else none, fun _ => none⟩).caveBalancesData "r" =
      some (some (max 0 (5 + (-5)))) ∧ (0:ℚ) ≤ max 0 (5 + (-5)) :=
  c3_updateCaveBalance_clamps.1
    ⟨fun x => if x = "r" then some (some 5) else none, fun _ => none⟩ "r" 5 (-5) none
    (by simp)

/-- Claim C4: when the snapshot has no entry (absent or `null`) for a
resource address, `updateCaveBalance` performs no update at all: the
state is returned unchanged and no entry is created. -/
theorem c4_updateCaveBalance_skips_unknown (st : CaveState) (a : String) (c : ℚ)
    (md : Option CaveMeta)
    (h : st.caveBalancesData a = none ∨ st.caveBalancesData a = some none) :
    updateCaveBalance a c md st = st := by
  unfold updateCaveBalance
  rcases h with h | h <;> rw [h]

/-- Witness for C4 at a concrete input. -/
theorem c4_witness :
    updateCaveBalance "r" 7 none ⟨fun _ => none, fun _ => none⟩ =
      ⟨fun _ => none, fun _ => none⟩ :=
  c4_updateCaveBalance_skips_unknown _ "r" 7 none (Or.inl rfl)

/-- Claim C5: after an IN transaction the reconciliation removes exactly
the session-cache keys `fungibles:<account>`, `nfts:<account>` and
`cave_tokens`; after an OUT transaction only the first two; every other
key is untouched. -/
theorem c5_invalidation_keys {α : Type} (mode : TxMode) (accountAddress : String)
    (resources : List TxResource) (st : CaveState) (sc : KVCache α) (k : String) :
    (reconcileAfterTransaction mode accountAddress resources st sc).2 k =
      if k = "fungibles:" ++ accountAddress ∨ k = "nfts:" ++ accountAddress ∨
          (mode = TxMode.inCave ∧ k = "cave_tokens") then none
      else sc k := by
  cases mode <;>
    simp only [reconcileAfterTransaction, cacheRemove, eq_self_iff_true, true_and,
      reduceCtorEq, false_and, or_false] <;>
    split_ifs <;> first | rfl | tauto

/-- `applyElems` never touches a key outside the pairs' keys. -/
theorem applyElems_not_mem (ps : List (String × RElement))
    (bal : String → Option (Option String)) (x : String)
    (hx : x ∉ ps.map Prod.fst) : applyElems ps bal x = bal x := by
  induction ps generalizing bal with
  | nil => rfl
  | cons p rest ih =>
    obtain ⟨a, el⟩ := p
    simp only [List.map_cons, List.mem_cons, not_or] at hx
    simp only [applyElems]
    rw [ih _ hx.2]
    split
    · simp [hx.1]
    · rfl

/-- The keys of a zip are a prefix of the first list. -/
theorem map_fst_zip_eq_take {α β : Type} (l₁ : List α) (l₂ : List β) :
    (l₁.zip l₂).map Prod.fst = l₁.take l₂.length := by
  induction l₁ generalizing l₂ with
  | nil => simp
  | cons a l₁ ih =>
    cases l₂ with
    | nil => simp
    | cons b l₂ => simp [ih]

/-- With distinct keys, `applyElems` maps the `i`-th key according to
the `i`-th element alone. -/
theorem applyElems_get (ps : List (String × RElement))
    (bal : String → Option (Option String)) (i : Nat) (hi : i < ps.length)
    (hnd : (ps.map Prod.fst).Nodup) (key : String) (el : RElement)
    (hk : ps.get ⟨i, hi⟩ = (key, el)) :
    applyElems ps bal key =
      if el.isSomeVariant then some (some (jsOr el.firstFieldValue "0"))
      else bal key := by
  induction ps generalizing bal i with
  | nil => exact absurd hi (by simp)
  | cons p rest ih =>
    obtain ⟨a, el0⟩ := p
    simp only [List.map_cons, List.nodup_cons] at hnd
    cases i with
    | zero =>
      have hk0 : (a, el0) = (key, el) := hk
      injection hk0 with h1 h2
      subst h1; subst h2
      simp only [applyElems]
      rw [applyElems_not_mem rest _ a hnd.1]
      split
      · simp
      · rfl
    | succ j =>
      have hj : j < rest.length := by simpa using hi
      have hk1 : rest.get ⟨j, hj⟩ = (key, el) := hk
      simp only [applyElems]
      rw [ih _ j hj hnd.2 hk1]
      split
      · rfl
      · split
        · have hne : key ≠ a := by
            intro he
            apply hnd.1
            rw [← he]
            exact List.mem_map_of_mem Prod.fst (hk1 ▸ List.get_mem rest j hj)
          simp [hne]
        · rfl

/-- Claim C1: `parseBalancesFromReceipt` initializes every queried
address to null; under a non-`Succeeded` status, or with no output /
no structured return, every queried address stays null; under a
succeeded receipt with a structured return, position `i` becomes the
`i`-th element's first nested field value (or `"0"` when that value is
empty) exactly when that element is the `Some` variant
(`variant_id = "1"` or `variant_name = "Some"`), and all other
positions, including those beyond the shorter sequence, stay null. -/
theorem c1_parseBalances_characterization (receipt : Option Receipt)
    (addrs : List String) (hnd : addrs.Nodup) :
    ((∀ r, receipt = some r → r.status ≠ some "Succeeded") →
      ∀ a ∈ addrs, parseBalancesFromReceipt receipt addrs a = some none) ∧
    (∀ r, receipt = some r → r.status = some "Succeeded" →
      (∀ lo, (r.output.getD []).getLast? = some lo → lo.programmatic_json = none) →
      ∀ a ∈ addrs, parseBalancesFromReceipt receipt addrs a = some none) ∧
    (∀ r, receipt = some r → r.status = some "Succeeded" →
      ∀ lo, (r.output.getD []).getLast? = some lo →
      ∀ pj, lo.programmatic_json = some pj →
      ∀ i, ∀ hi : i < addrs.length,
      parseBalancesFromReceipt receipt addrs (addrs.get ⟨i, hi⟩) =
        some (if h2 : i < (pjElements pj).length then
                (if ((pjElements pj).get ⟨i, h2⟩).isSomeVariant then
                  some (jsOr ((pjElements pj).get ⟨i, h2⟩).firstFieldValue "0")
                else none)
              else none)) := by
  refine ⟨?_, ?_, ?_⟩
  · intro h a ha
    rcases receipt with _ | r
    · simp [parseBalancesFromReceipt, initBalances, ha]
    · have hs := h r rfl
      simp [parseBalancesFromReceipt, initBalances, hs, ha]
  · intro r hr hs hpj a ha
    subst hr
    have hcond : ¬(r.status ≠ some "Succeeded") := by simp [hs]
    simp only [parseBalancesFromReceipt, if_neg hcond]
    rcases hlx : (r.output.getD []).getLast? with _ | lo
    · simp [parseBalancesLast, initBalances, ha]
    · have h0 := hpj lo hlx
      simp [parseBalancesLast, parseBalancesPj, h0, initBalances, ha]
  · intro r hr hs lo hl pj hpj i hi
    subst hr
    have hcond : ¬(r.status ≠ some "Succeeded") := by simp [hs]
    simp only [parseBalancesFromReceipt, if_neg hcond, hl, parseBalancesLast, hpj,
      parseBalancesPj]
    by_cases h2 : i < (pjElements pj).length
    · have hzi : i < (addrs.zip (pjElements pj)).length := by
        rw [List.length_zip]
        exact lt_min hi h2
      have hkey : (addrs.zip (pjElements pj)).get ⟨i, hzi⟩ =
          (addrs.get ⟨i, hi⟩, (pjElements pj).get ⟨i, h2⟩) := by
        simp [List.get_eq_getElem, List.getElem_zip]
      rw [applyElems_get (addrs.zip (pjElements pj)) _ i hzi
        (by rw [map_fst_zip_eq_take]; exact (List.take_sublist _ _).nodup hnd) _ _ hkey]
      rw [dif_pos h2]
      split
      · rfl
      · simp [initBalances, List.get_mem]
    · have hnm : addrs.get ⟨i, hi⟩ ∉ (addrs.zip (pjElements pj)).map Prod.fst := by
        rw [map_fst_zip_eq_take]
        intro hmem
        rw [List.mem_iff_getElem] at hmem
        obtain ⟨n, hn, heq⟩ := hmem
        rw [List.getElem_take] at heq
        simp only [List.length_take, lt_min_iff] at hn
        rw [List.get_eq_getElem] at heq
        have hni : n = i := (hnd.getElem_inj_iff).mp heq
        omega
      rw [applyElems_not_mem _ _ _ hnm]
      rw [dif_neg h2]
      simp [initBalances, List.get_mem]

/-- Witness for C1: the example receipt with a `Some "42.5"` at
position 0 and a `None` at position 1, for two queried addresses,
yields 42.5 for the first address and null for the second. -/
theorem c1_witness :
    parseBalancesFromReceipt (some c1ExampleReceipt) ["addrA", "addrB"] "addrA" =
      some (some "42.5") ∧
    parseBalancesFromReceipt (some c1ExampleReceipt) ["addrA", "addrB"] "addrB" =
      some none := by
  have h := (c1_parseBalances_characterization (some c1ExampleReceipt)
    ["addrA", "addrB"] (by decide)).2.2
  have h0 := h c1ExampleReceipt rfl rfl _ rfl _ rfl 0 (by decide)
  have h1 := h c1ExampleReceipt rfl rfl _ rfl _ rfl 1 (by decide)
  exact ⟨by simpa using h0, by simpa using h1⟩

/-- Claim C6 counterexample: on a gateway where every KVS page request
fails, `getAllCaveTokens` returns a *successful* empty token list — the
`try…catch` around the whole loop swallows the gateway failure instead
of propagating it. -/
theorem c6_counterexample :
    getAllCaveTokens 0 1 c6FailingGw (emptyCache (List String)) =
      some ([], emptyCache (List String)) := rfl

/-- Claim C6 (amended): `getAllCaveTokens` absorbs gateway failures
locally: whenever the KVS pagination raises an error (and the session
cache has no entry), it catches the error and returns the empty list,
leaving the session cache unwritten. -/
theorem c6_absorbs_gateway_failure (now fuel : Nat)
    (gw : KvsRequest → Except JsError KvsPage) (scache : KVCache (List String))
    (e : JsError)
    (hmiss : (cacheGet now scache "cave_tokens").1 = none)
    (hfail : caveKeysLoop gw fuel none [] = some (.error e)) :
    getAllCaveTokens now fuel gw scache =
      some ([], (cacheGet now scache "cave_tokens").2) := by
  unfold getAllCaveTokens
  split
  · rename_i cached sc' heq
    rw [heq] at hmiss
    simp at hmiss
  · rename_i sc' heq
    rw [hfail, heq]

/-- Witness for C6's amended claim at a concrete failing gateway. -/
theorem c6_witness :
    getAllCaveTokens 0 1 c6FailingGw (emptyCache (List String)) =
      some ([], (cacheGet 0 (emptyCache (List String)) "cave_tokens").2) :=
  c6_absorbs_gateway_failure 0 1 c6FailingGw (emptyCache (List String))
    ⟨"network down"⟩ rfl rfl

/-- Claim C7 counterexample: `gatewayFetch` produces *identical* error
values for a transport failure and for a Gateway-reported error, so its
failures do not distinguish the two kinds.  The two inputs are
distinct: one is a rejected fetch, the other an HTTP 500 whose JSON
body fails to parse. -/
theorem c7_counterexample :
    c7TransportOutcome ≠ c7GatewayOutcome ∧
    gatewayFetch c7TransportOutcome = gatewayFetch c7GatewayOutcome := by
  constructor
  · decide
  · rfl

/-- Claim C7 (amended): on a non-success HTTP status, `gatewayFetch`
fails with the decoded JSON error message when one is available (a
non-empty `message` in a parseable body), and otherwise with the
generic message carrying the status code; a transport rejection
propagates as the rejected error unchanged; and it never retries — only
the first fetch attempt of the outcome stream is ever consulted.  Every
failure is a plain message-carrying error with no structural
distinction between transport and Gateway failures. -/
theorem c7_gatewayFetch_errors :
    (∀ r : HttpResponse, ∀ m : String, r.ok = false → r.json = .ok ⟨some m⟩ → m ≠ "" →
      gatewayFetch (.resp r) = .error ⟨m⟩) ∧
    (∀ r : HttpResponse, r.ok = false → r.json = .ok ⟨none⟩ →
      gatewayFetch (.resp r) = .error ⟨"Gateway error: " ++ toString r.status⟩) ∧
    (∀ r : HttpResponse, ∀ e : JsError, r.ok = false → r.json = .error e →
      gatewayFetch (.resp r) = .error ⟨"Gateway error: " ++ toString r.status⟩) ∧
    (∀ e : JsError, gatewayFetch (.reject e) = .error e) ∧
    (∀ f g : Nat → FetchOutcome, f 0 = g 0 →
      gatewayFetchStream f = gatewayFetchStream g) := by
  refine ⟨?_, ?_, ?_, ?_, ?_⟩
  · intro r m hok hjson hm
    simp [gatewayFetch, hok, hjson, jsOr, hm]
  · intro r hok hjson
    simp [gatewayFetch, hok, hjson, jsOr]
  · intro r e hok hjson
    simp [gatewayFetch, hok, hjson, jsOr]
  · intro e
    rfl
  · intro f g h
    simp [gatewayFetchStream, h]

/-- Witness for C7's amended claim at concrete inputs. -/
theorem c7_witness :
    gatewayFetch (.resp ⟨false, 404, .ok ⟨some "not found"⟩⟩) = .error ⟨"not found"⟩ ∧
    gatewayFetch (.reject ⟨"offline"⟩) = .error ⟨"offline"⟩ :=
  ⟨c7_gatewayFetch_errors.1 ⟨false, 404, .ok ⟨some "not found"⟩⟩ "not found" rfl rfl
    (by decide),
   c7_gatewayFetch_errors.2.2.2.1 ⟨"offline"⟩⟩

/-- `chainReqs` issues one request per page of the chain. -/
theorem chainReqs_length (accountAddress : String) :
    ∀ (ps : List FungPage) (c0 : Option String),
      (chainReqs accountAddress c0 ps).length = ps.length
  | [], _ => rfl
  | p :: ps, c0 => by
    simp [chainReqs, chainReqs_length accountAddress ps]

/-- The pagination loop follows a server chain page by page. -/
theorem fungFetchLoop_chain (gw : FungPageRequest → FungPage) (accountAddress : String) :
    ∀ {c0 : Option String} {ps : List FungPage}, FungChain gw accountAddress c0 ps →
    ∀ fuel, ps.length ≤ fuel →
    fungFetchLoop gw accountAddress fuel c0 =
      some (ps.flatMap
          (fun p => p.items.map (fun it => Holding.mk it.resource_address it.amount)),
        chainReqs accountAddress c0 ps) := by
  intro c0 ps hchain
  induction hchain with
  | @last c p hgw hfalse =>
    intro fuel hfuel
    cases fuel with
    | zero => simp at hfuel
    | succ f =>
      simp only [fungFetchLoop, hgw, hfalse]
      simp [chainReqs]
  | @cons c p c' ps hgw hcur hne hrest ih =>
    intro fuel hfuel
    cases fuel with
    | zero => simp at hfuel
    | succ f =>
      have hf : ps.length ≤ f := by
        simp only [List.length_cons] at hfuel
        omega
      have htruthy : jsTruthyStr p.next_cursor = true := by
        rw [hcur]
        simp [jsTruthyStr, hne]
      simp only [fungFetchLoop, hgw, htruthy, if_true]
      rw [hcur, ih f hf]
      simp [chainReqs, hcur]

/-- Claim C9 (amended): for a server chain of `n` pages linked by
non-null *non-empty* cursors and terminated by a falsy (null, absent,
or empty) `next_cursor`, the pagination loop of `getAccountFungibles`
issues exactly the `n` chained requests — the first request omits the
cursor field for a falsy starting state, and each later request passes
the previous response's cursor (`chainReqs`/`mkFungReq`) — and returns
the concatenation of all pages' items in page order. -/
theorem c9_pagination_chain (gw : FungPageRequest → FungPage) (accountAddress : String)
    (ps : List FungPage) (c0 : Option String) (fuel : Nat)
    (hchain : FungChain gw accountAddress c0 ps) (hfuel : ps.length ≤ fuel) :
    fungFetchLoop gw accountAddress fuel c0 =
      some (ps.flatMap
          (fun p => p.items.map (fun it => Holding.mk it.resource_address it.amount)),
        chainReqs accountAddress c0 ps) ∧
    (chainReqs accountAddress c0 ps).length = ps.length :=
  ⟨fungFetchLoop_chain gw accountAddress hchain fuel hfuel,
   chainReqs_length accountAddress ps c0⟩

/-- Witness for C9's amended claim: a concrete two-page chain linked by
`"cursor1"` causes exactly two requests and concatenates both pages. -/
theorem c9_witness :
    fungFetchLoop c9GoodGw "acct" 5 none =
      some (([⟨[⟨"res_p1", "1"⟩], some "cursor1"⟩,
              ⟨[⟨"res_p2", "2"⟩], none⟩] : List FungPage).flatMap
          (fun p => p.items.map (fun it => Holding.mk it.resource_address it.amount)),
        chainReqs "acct" none [⟨[⟨"res_p1", "1"⟩], some "cursor1"⟩,
          ⟨[⟨"res_p2", "2"⟩], none⟩]) ∧
    (chainReqs "acct" none [⟨[⟨"res_p1", "1"⟩], some "cursor1"⟩,
        ⟨[⟨"res_p2", "2"⟩], none⟩]).length =
      ([⟨[⟨"res_p1", "1"⟩], some "cursor1"⟩,
        ⟨[⟨"res_p2", "2"⟩], none⟩] : List FungPage).length :=
  c9_pagination_chain c9GoodGw "acct" _ none 5
    (FungChain.cons rfl rfl (by decide) (FungChain.last rfl rfl)) (by decide)

/-- Claim C9 counterexample: a server whose first page returns the
non-null but *empty* cursor `""` (with its second page final, a chain
the claim's premise covers with `n = 2`) receives only one request —
the empty-string cursor is falsy in JS, so the loop stops without ever
fetching page 2, instead of issuing exactly 2 requests and
concatenating both pages. -/
theorem c9_counterexample :
    (c9EmptyCursorGw (mkFungReq "acct" none)).next_cursor = some "" ∧
    (c9EmptyCursorGw ⟨"acct", "Global", some ""⟩).next_cursor = none ∧
    fungFetchLoop c9EmptyCursorGw "acct" 5 none =
      some ([Holding.mk "resource_a" "1"], [mkFungReq "acct" none]) := by
  refine ⟨rfl, rfl, rfl⟩

/-- `dcacheGet` only ever modifies the entry at its own key (the purge). -/
theorem dcacheGet_snd_ne (now : Nat) (c : DCache) (k x : String)
    (hx : x ≠ k) : (dcacheGet now c k).2 x = c x := by
  rcases hck : c k with _ | e
  · simp [dcacheGet, hck]
  · by_cases hexp : e.expiry.expired now
    · simp [dcacheGet, hck, hexp, hx]
    · simp [dcacheGet, hck, hexp]

/-- The value `dcacheGet` returns depends only on the entry at its key. -/
theorem dcacheGet_fst_congr (now : Nat) {c c' : DCache} (k : String)
    (h : c k = c' k) : (dcacheGet now c k).1 = (dcacheGet now c' k).1 := by
  rcases hck : c k with _ | e
  · rw [hck] at h
    simp [dcacheGet, hck, ← h]
  · rw [hck] at h
    by_cases hexp : e.expiry.expired now
    · simp [dcacheGet, hck, ← h, hexp]
    · simp [dcacheGet, hck, ← h, hexp]

/-- A hit performs no purge: the cache comes back unchanged. -/
theorem dcacheGet_snd_of_isSome (now : Nat) (c : DCache) (k : String)
    (h : ((dcacheGet now c k).1).isSome) : (dcacheGet now c k).2 = c := by
  rcases hck : c k with _ | e
  · simp [dcacheGet, hck]
  · by_cases hexp : e.expiry.expired now
    · simp [dcacheGet, hck, hexp] at h
    · simp [dcacheGet, hck, hexp]

/-- A miss stays a miss after its own purge. -/
theorem dcacheGet_fst_none_after (now : Nat) (c : DCache) (k : String)
    (h : (dcacheGet now c k).1 = none) :
    (dcacheGet now ((dcacheGet now c k).2) k).1 = none := by
  rcases hck : c k with _ | e
  · simp [dcacheGet, hck]
  · by_cases hexp : e.expiry.expired now
    · simp [dcacheGet, hck, hexp]
    · simp [dcacheGet, hck, hexp] at h

/-- An entry whose expiry came back as `null` from the JSON round trip
(the fate of every entry written with the shipped `Infinity` TTL) is a
miss at every positive time. -/
theorem dcacheGet_null_of_pos (now : Nat) (c : DCache) (k : String) (v : ResourceData)
    (hnow : 0 < now) (h : c k = some ⟨v, StoredExpiry.null⟩) :
    (dcacheGet now c k).1 = none := by
  simp [dcacheGet, h, StoredExpiry.expired, hnow]

/-- `cacheAgrees` holds reflexively. -/
theorem cacheAgrees_refl (now : Nat) (cache : DCache) : cacheAgrees now cache cache :=
  fun _ => ⟨fun _ => rfl, fun h => h⟩

/-- Full characterization of the partition loop of `getResourceMetadata`
against the original cache: `toFetch` collects exactly the addresses
the original cache misses (in order), `results` maps exactly the hit
addresses to their cached values, and the threaded cache still agrees
with the original. -/
theorem partitionCached_spec (now : Nat) (cache : DCache) :
    ∀ (rest : List String) (c : DCache) (res : String → Option ResourceData)
      (tf : List String), cacheAgrees now cache c →
      (partitionCached now rest c res tf).2.1 =
        tf ++ rest.filter (fun a => ((dcacheGet now cache ("resource:" ++ a)).1).isNone) ∧
      (∀ x, (partitionCached now rest c res tf).1 x =
        if x ∈ rest ∧ ((dcacheGet now cache ("resource:" ++ x)).1).isSome
        then (dcacheGet now cache ("resource:" ++ x)).1
        else res x) ∧
      cacheAgrees now cache (partitionCached now rest c res tf).2.2 := by
  intro rest
  induction rest with
  | nil =>
    intro c res tf hagree
    refine ⟨by simp [partitionCached], ?_, hagree⟩
    intro x
    simp [partitionCached]
  | cons addr rest ih =>
    intro c res tf hagree
    rcases horig : (dcacheGet now cache ("resource:" ++ addr)).1 with _ | v
    · have hcur : (dcacheGet now c ("resource:" ++ addr)).1 = none :=
        (hagree _).2 horig
      have hagree' :
          cacheAgrees now cache ((dcacheGet now c ("resource:" ++ addr)).2) := by
        intro k
        constructor
        · intro hk
          by_cases hkk : k = "resource:" ++ addr
          · subst hkk
            rw [horig] at hk
            simp at hk
          · rw [dcacheGet_snd_ne now c _ k hkk]
            exact (hagree k).1 hk
        · intro hk
          by_cases hkk : k = "resource:" ++ addr
          · subst hkk
            exact dcacheGet_fst_none_after now c _ hcur
          · rw [dcacheGet_fst_congr now k (dcacheGet_snd_ne now c _ k hkk)]
            exact (hagree k).2 hk
      obtain ⟨ih1, ih2, ih3⟩ := ih _ res (tf ++ [addr]) hagree'
      refine ⟨?_, ?_, ?_⟩
      · simp only [partitionCached, hcur]
        rw [ih1]
        simp [List.filter_cons, horig]
      · intro x
        simp only [partitionCached, hcur]
        rw [ih2 x]
        by_cases hx : x = addr
        · subst hx
          simp [horig]
        · simp [hx]
      · simp only [partitionCached, hcur]
        exact ih3
    · have hck : c ("resource:" ++ addr) = cache ("resource:" ++ addr) :=
        (hagree _).1 (by simp [horig])
      have hcur : (dcacheGet now c ("resource:" ++ addr)).1 = some v := by
        rw [dcacheGet_fst_congr now _ hck]
        exact horig
      have hsnd : (dcacheGet now c ("resource:" ++ addr)).2 = c :=
        dcacheGet_snd_of_isSome now c _ (by simp [hcur])
      obtain ⟨ih1, ih2, ih3⟩ :=
        ih c (fun x => if x = addr then some v else res x) tf hagree
      refine ⟨?_, ?_, ?_⟩
      · simp only [partitionCached, hcur, hsnd]
        rw [ih1]
        simp [List.filter_cons, horig]
      · intro x
        simp only [partitionCached, hcur, hsnd]
        rw [ih2 x]
        by_cases hx : x = addr
        · subst hx
          simp [horig]
        · simp [hx]
      · simp only [partitionCached, hcur, hsnd]
        exact ih3

/-- The cache-key prefix is injective. -/
theorem resKey_inj {a b : String} (h : "resource:" ++ a = "resource:" ++ b) : a = b := by
  have hd := congrArg String.data h
  simp only [String.data_append] at hd
  exact String.ext (List.append_cancel_left hd)

/-- `processItems` leaves the results map untouched at an address no
response item carries. -/
theorem processItems_res_ne (now : Nat) :
    ∀ (items : List MetaItem) (res : String → Option ResourceData) (c : DCache)
      (x : String), (∀ it ∈ items, it.address ≠ x) →
      (processItems now items res c).1 x = res x
  | [], _, _, _, _ => rfl
  | item :: rest, res, c, x, h => by
    simp only [processItems]
    rw [processItems_res_ne now rest _ _ x
      (fun it hit => h it (List.mem_cons_of_mem _ hit))]
    exact if_neg (fun he => (h item (List.mem_cons_self _ _)) he.symm)

/-- `processItems` leaves the cache untouched at a key no response item
writes. -/
theorem processItems_cache_ne (now : Nat) :
    ∀ (items : List MetaItem) (res : String → Option ResourceData) (c : DCache)
      (k : String), (∀ it ∈ items, "resource:" ++ it.address ≠ k) →
      (processItems now items res c).2 k = c k
  | [], _, _, _, _ => rfl
  | item :: rest, res, c, k, h => by
    simp only [processItems]
    rw [processItems_cache_ne now rest _ _ k
      (fun it hit => h it (List.mem_cons_of_mem _ hit))]
    exact if_neg (fun he => (h item (List.mem_cons_self _ _)) he.symm)

/-- With distinct response addresses, `processItems` records every item
in the results map and writes it to the durable cache, where the
`Infinity` TTL is serialized to a `null` expiry. -/
theorem processItems_writes (now : Nat) :
    ∀ (items : List MetaItem) (res : String → Option ResourceData) (c : DCache),
      ((items.map (·.address)).Nodup) →
      ∀ it ∈ items,
        (processItems now items res c).1 it.address = some (mkResourceData it) ∧
        (processItems now items res c).2 ("resource:" ++ it.address) =
          some ⟨mkResourceData it, StoredExpiry.null⟩
  | [], _, _, _, it, hit => absurd hit (by simp)
  | item :: rest, res, c, hnd, it, hit => by
    simp only [List.map_cons, List.nodup_cons] at hnd
    rcases List.mem_cons.mp hit with heq | hmem
    · subst heq
      constructor
      · simp only [processItems]
        rw [processItems_res_ne now rest _ _ it.address
          (fun it2 hit2 he => hnd.1 (he ▸ List.mem_map_of_mem _ hit2))]
        simp
      · simp only [processItems]
        rw [processItems_cache_ne now rest _ _ ("resource:" ++ it.address)
          (fun it2 hit2 he => hnd.1 (resKey_inj he ▸ List.mem_map_of_mem _ hit2))]
        simp [dcacheSet, addTtl, jsonExpiry]
    · exact processItems_writes now rest _ _ hnd.2 it hmem

/-- The Gateway calls `getResourceMetadata` issues: none when every
address is cached, otherwise exactly one batch for the uncached
addresses in order, with `aggregation_level: "Global"` and the explicit
opt-in metadata fields. -/
theorem getResourceMetadata_calls (now : Nat) (gw : EntityDetailsRequest → List MetaItem)
    (cache : DCache) (addresses : List String) :
    (getResourceMetadata now gw cache addresses).2.2 =
      if addresses.filter
          (fun a => ((dcacheGet now cache ("resource:" ++ a)).1).isNone) = [] then []
      else [⟨addresses.filter
            (fun a => ((dcacheGet now cache ("resource:" ++ a)).1).isNone),
          "Global", ["name", "symbol", "icon_url", "description"]⟩] := by
  obtain ⟨h1, -, -⟩ := partitionCached_spec now cache addresses cache (fun _ => none) []
    (cacheAgrees_refl now cache)
  have htf : (partitionCached now addresses cache (fun _ => none) []).2.1 =
      addresses.filter (fun a => ((dcacheGet now cache ("resource:" ++ a)).1).isNone) := by
    simpa using h1
  simp only [getResourceMetadata]
  rw [htf]
  split <;> simp_all

/-- A cached, unexpired address is served from the cache (provided the
server only answers addresses it was asked for). -/
theorem getResourceMetadata_hit (now : Nat) (gw : EntityDetailsRequest → List MetaItem)
    (cache : DCache) (addresses : List String) (a : String) (v : ResourceData)
    (ha : a ∈ addresses) (hv : (dcacheGet now cache ("resource:" ++ a)).1 = some v)
    (hresp : ∀ req ∈ (getResourceMetadata now gw cache addresses).2.2,
      ∀ it ∈ gw req, it.address ∈ req.addresses) :
    (getResourceMetadata now gw cache addresses).1 a = some v := by
  obtain ⟨h1, h2, -⟩ := partitionCached_spec now cache addresses cache (fun _ => none) []
    (cacheAgrees_refl now cache)
  have htf : (partitionCached now addresses cache (fun _ => none) []).2.1 =
      addresses.filter (fun a => ((dcacheGet now cache ("resource:" ++ a)).1).isNone) := by
    simpa using h1
  have hres : (partitionCached now addresses cache (fun _ => none) []).1 a = some v := by
    rw [h2 a]
    simp [ha, hv]
  by_cases hfil : addresses.filter
      (fun a => ((dcacheGet now cache ("resource:" ++ a)).1).isNone) = []
  · simp only [getResourceMetadata]
    rw [htf, if_pos hfil]
    exact hres
  · have hreqmem : (⟨addresses.filter
        (fun a => ((dcacheGet now cache ("resource:" ++ a)).1).isNone),
        "Global", ["name", "symbol", "icon_url", "description"]⟩ : EntityDetailsRequest) ∈
        (getResourceMetadata now gw cache addresses).2.2 := by
      rw [getResourceMetadata_calls, if_neg hfil]
      simp
    have hnotin : ∀ it ∈ gw (⟨addresses.filter
        (fun a => ((dcacheGet now cache ("resource:" ++ a)).1).isNone),
        "Global", ["name", "symbol", "icon_url", "description"]⟩ : EntityDetailsRequest),
        it.address ≠ a := by
      intro it hit he
      have hmem : it.address ∈ addresses.filter
          (fun a => ((dcacheGet now cache ("resource:" ++ a)).1).isNone) :=
        hresp _ hreqmem it hit
      rw [he] at hmem
      have := (List.mem_filter.mp hmem).2
      simp [hv] at this
    simp only [getResourceMetadata]
    rw [htf, if_neg hfil]
    rw [processItems_res_ne now _ _ _ a hnotin]
    exact hres

/-- A cached, unexpired address never appears in an issued batch. -/
theorem getResourceMetadata_hit_not_requested (now : Nat)
    (gw : EntityDetailsRequest → List MetaItem) (cache : DCache)
    (addresses : List String) (a : String)
    (hsome : ((dcacheGet now cache ("resource:" ++ a)).1).isSome) :
    ∀ req ∈ (getResourceMetadata now gw cache addresses).2.2, a ∉ req.addresses := by
  intro req hreq ha
  rw [getResourceMetadata_calls] at hreq
  by_cases hfil : addresses.filter
      (fun a => ((dcacheGet now cache ("resource:" ++ a)).1).isNone) = []
  · rw [if_pos hfil] at hreq
    simp at hreq
  · rw [if_neg hfil] at hreq
    simp at hreq
    subst hreq
    have ha' : a ∈ addresses.filter
        (fun a => ((dcacheGet now cache ("resource:" ++ a)).1).isNone) := ha
    have hnone := (List.mem_filter.mp ha').2
    simp only [Option.isNone_iff_eq_none, decide_eq_true_eq] at hnone
    rw [hnone] at hsome
    simp at hsome

/-- Every item of a batch response is recorded in the results map and
written back to the durable cache — where the `Infinity` TTL the code
passes has become a `null` expiry through the JSON round trip. -/
theorem getResourceMetadata_fetched (now : Nat)
    (gw : EntityDetailsRequest → List MetaItem) (cache : DCache)
    (addresses : List String)
    (hnd : ∀ req ∈ (getResourceMetadata now gw cache addresses).2.2,
      ((gw req).map (·.address)).Nodup) :
    ∀ req ∈ (getResourceMetadata now gw cache addresses).2.2, ∀ it ∈ gw req,
      (getResourceMetadata now gw cache addresses).1 it.address =
        some (mkResourceData it) ∧
      (getResourceMetadata now gw cache addresses).2.1 ("resource:" ++ it.address) =
        some ⟨mkResourceData it, StoredExpiry.null⟩ := by
  intro req hreq it hit
  obtain ⟨h1, -, -⟩ := partitionCached_spec now cache addresses cache (fun _ => none) []
    (cacheAgrees_refl now cache)
  have htf : (partitionCached now addresses cache (fun _ => none) []).2.1 =
      addresses.filter (fun a => ((dcacheGet now cache ("resource:" ++ a)).1).isNone) := by
    simpa using h1
  have hndr := hnd req hreq
  rw [getResourceMetadata_calls] at hreq
  by_cases hfil : addresses.filter
      (fun a => ((dcacheGet now cache ("resource:" ++ a)).1).isNone) = []
  · rw [if_pos hfil] at hreq
    simp at hreq
  · rw [if_neg hfil] at hreq
    simp at hreq
    subst hreq
    constructor
    · simp only [getResourceMetadata]
      rw [htf, if_neg hfil]
      exact (processItems_writes now _ _ _ hndr it hit).1
    · simp only [getResourceMetadata]
      rw [htf, if_neg hfil]
      exact (processItems_writes now _ _ _ hndr it hit).2

/-- An uncached address the server's response omits ends up with no
entry at all in the returned map. -/
theorem getResourceMetadata_absent (now : Nat)
    (gw : EntityDetailsRequest → List MetaItem) (cache : DCache)
    (addresses : List String) (a : String)
    (hmiss : (dcacheGet now cache ("resource:" ++ a)).1 = none)
    (hresp : ∀ req ∈ (getResourceMetadata now gw cache addresses).2.2,
      ∀ it ∈ gw req, it.address ≠ a) :
    (getResourceMetadata now gw cache addresses).1 a = none := by
  obtain ⟨h1, h2, -⟩ := partitionCached_spec now cache addresses cache (fun _ => none) []
    (cacheAgrees_refl now cache)
  have htf : (partitionCached now addresses cache (fun _ => none) []).2.1 =
      addresses.filter (fun a => ((dcacheGet now cache ("resource:" ++ a)).1).isNone) := by
    simpa using h1
  have hres : (partitionCached now addresses cache (fun _ => none) []).1 a = none := by
    rw [h2 a]
    simp [hmiss]
  by_cases hfil : addresses.filter
      (fun a => ((dcacheGet now cache ("resource:" ++ a)).1).isNone) = []
  · simp only [getResourceMetadata]
    rw [htf, if_pos hfil]
    exact hres
  · have hreqmem : (⟨addresses.filter
        (fun a => ((dcacheGet now cache ("resource:" ++ a)).1).isNone),
        "Global", ["name", "symbol", "icon_url", "description"]⟩ : EntityDetailsRequest) ∈
        (getResourceMetadata now gw cache addresses).2.2 := by
      rw [getResourceMetadata_calls, if_neg hfil]
      simp
    simp only [getResourceMetadata]
    rw [htf, if_neg hfil]
    rw [processItems_res_ne now _ _ _ a (hresp _ hreqmem)]
    exact hres

/-- Claim C8, the failing cross-call part, evaluated at a concrete
input: the first resolution of the uncached `res_3` issues the batch
and writes the entry back — but through the JSON round trip its
`Infinity` TTL becomes a `null` expiry, so a repeat call at a later
(positive) time finds the entry expired, purges it, and issues the very
same batch again.  The address *is* re-fetched across calls, although
`src/cache.js` documents an `Infinity` expiry as never expiring. -/
theorem c8_infinity_ttl_refetches :
    (getResourceMetadata 0 c8Gw emptyDCache ["res_3"]).2.2 =
      [⟨["res_3"], "Global", ["name", "symbol", "icon_url", "description"]⟩] ∧
    (getResourceMetadata 0 c8Gw emptyDCache ["res_3"]).2.1 ("resource:" ++ "res_3") =
      some ⟨mkResourceData c8Item3, StoredExpiry.null⟩ ∧
    (getResourceMetadata 1000 c8Gw
        (getResourceMetadata 0 c8Gw emptyDCache ["res_3"]).2.1 ["res_3"]).2.2 =
      [⟨["res_3"], "Global", ["name", "symbol", "icon_url", "description"]⟩] := by
  decide

/-- Claim C2: with no explicit `name` metadata the display name is
derived by shortening the address (a 15-character prefix and
6-character suffix joined by `"..."`), and this fallback never takes
hold as the resource's cached name: the write-back's `Infinity` TTL
serializes to a `null` expiry, so a later resolution (at any positive
time) misses the durable cache, re-issues the batch, and an explicit
name available by then takes precedence. -/
theorem c2_fallback_name_precedence (now now2 : Nat)
    (gw gw2 : EntityDetailsRequest → List MetaItem) (cache : DCache)
    (addr : String) (item item2 : MetaItem) (m : String)
    (hnow2 : 0 < now2)
    (hmiss : (dcacheGet now cache ("resource:" ++ addr)).1 = none)
    (hresp : gw ⟨[addr], "Global", ["name", "symbol", "icon_url", "description"]⟩ = [item])
    (haddr : item.address = addr)
    (hname :
      extractMetadata ((item.explicit_metadata.bind (·.items)).getD []) "name" = none ∨
      extractMetadata ((item.explicit_metadata.bind (·.items)).getD []) "name" = some "")
    (hresp2 :
      gw2 ⟨[addr], "Global", ["name", "symbol", "icon_url", "description"]⟩ = [item2])
    (haddr2 : item2.address = addr)
    (hname2 :
      extractMetadata ((item2.explicit_metadata.bind (·.items)).getD []) "name" = some m)
    (hm : m ≠ "") :
    (mkResourceData item).name = shortenAddress addr 15 6 ∧
    (getResourceMetadata now gw cache [addr]).1 addr = some (mkResourceData item) ∧
    (getResourceMetadata now2 gw2
        ((getResourceMetadata now gw cache [addr]).2.1) [addr]).2.2 =
      [⟨[addr], "Global", ["name", "symbol", "icon_url", "description"]⟩] ∧
    (getResourceMetadata now2 gw2
        ((getResourceMetadata now gw cache [addr]).2.1) [addr]).1 addr =
      some (mkResourceData item2) ∧
    (mkResourceData item2).name = m := by
  have hfil : ([addr].filter
      (fun a => ((dcacheGet now cache ("resource:" ++ a)).1).isNone)) = [addr] := by
    simp [List.filter_cons, hmiss]
  have hcalls : (getResourceMetadata now gw cache [addr]).2.2 =
      [⟨[addr], "Global", ["name", "symbol", "icon_url", "description"]⟩] := by
    rw [getResourceMetadata_calls, hfil]
    simp
  have hnd : ∀ req ∈ (getResourceMetadata now gw cache [addr]).2.2,
      ((gw req).map (·.address)).Nodup := by
    intro req hr
    rw [hcalls] at hr
    simp at hr
    subst hr
    rw [hresp]
    simp
  have hfetched := getResourceMetadata_fetched now gw cache [addr] hnd
    ⟨[addr], "Global", ["name", "symbol", "icon_url", "description"]⟩
    (by rw [hcalls]; simp) item (by rw [hresp]; simp)
  have hres1 : (getResourceMetadata now gw cache [addr]).1 addr =
      some (mkResourceData item) := by
    have h1 := hfetched.1
    rw [haddr] at h1
    exact h1
  have hcache1 : (getResourceMetadata now gw cache [addr]).2.1 ("resource:" ++ addr) =
      some ⟨mkResourceData item, StoredExpiry.null⟩ := by
    have h1 := hfetched.2
    rw [haddr] at h1
    exact h1
  have hn : (mkResourceData item).name = shortenAddress addr 15 6 := by
    have h1 : (mkResourceData item).name = shortenAddress item.address 15 6 := by
      rcases hname with h | h <;> simp [mkResourceData, jsOr, h]
    rw [haddr] at h1
    exact h1
  have hmiss2 : (dcacheGet now2 ((getResourceMetadata now gw cache [addr]).2.1)
      ("resource:" ++ addr)).1 = none :=
    dcacheGet_null_of_pos now2 _ _ _ hnow2 hcache1
  have hfil2 : ([addr].filter (fun a =>
      ((dcacheGet now2 ((getResourceMetadata now gw cache [addr]).2.1)
        ("resource:" ++ a)).1).isNone)) = [addr] := by
    simp [List.filter_cons, hmiss2]
  have hcalls2 : (getResourceMetadata now2 gw2
      ((getResourceMetadata now gw cache [addr]).2.1) [addr]).2.2 =
      [⟨[addr], "Global", ["name", "symbol", "icon_url", "description"]⟩] := by
    rw [getResourceMetadata_calls, hfil2]
    simp
  have hnd2 : ∀ req ∈ (getResourceMetadata now2 gw2
      ((getResourceMetadata now gw cache [addr]).2.1) [addr]).2.2,
      ((gw2 req).map (·.address)).Nodup := by
    intro req hr
    rw [hcalls2] at hr
    simp at hr
    subst hr
    rw [hresp2]
    simp
  have hfetched2 := getResourceMetadata_fetched now2 gw2
    ((getResourceMetadata now gw cache [addr]).2.1) [addr] hnd2
    ⟨[addr], "Global", ["name", "symbol", "icon_url", "description"]⟩
    (by rw [hcalls2]; simp) item2 (by rw [hresp2]; simp)
  have hres2 : (getResourceMetadata now2 gw2
      ((getResourceMetadata now gw cache [addr]).2.1) [addr]).1 addr =
      some (mkResourceData item2) := by
    have h1 := hfetched2.1
    rw [haddr2] at h1
    exact h1
  have hn2 : (mkResourceData item2).name = m := by
    simp [mkResourceData, jsOr, hname2, hm]
  exact ⟨hn, hres1, hcalls2, hres2, hn2⟩

/-- Witness for C2: the no-name item is resolved with the shortened
name; the repeat resolution at time 1000 re-issues the batch and
returns the explicit name `"Gold"`. -/
theorem c2_witness :
    (mkResourceData c2ItemNoName).name = shortenAddress c2Address 15 6 ∧
    (getResourceMetadata 0 c2GwFirst emptyDCache [c2Address]).1 c2Address =
      some (mkResourceData c2ItemNoName) ∧
    (getResourceMetadata 1000 c2GwSecond
        ((getResourceMetadata 0 c2GwFirst emptyDCache [c2Address]).2.1)
        [c2Address]).2.2 =
      [⟨[c2Address], "Global", ["name", "symbol", "icon_url", "description"]⟩] ∧
    (getResourceMetadata 1000 c2GwSecond
        ((getResourceMetadata 0 c2GwFirst emptyDCache [c2Address]).2.1)
        [c2Address]).1 c2Address = some (mkResourceData c2ItemNamed) ∧
    (mkResourceData c2ItemNamed).name = "Gold" :=
  c2_fallback_name_precedence 0 1000 c2GwFirst c2GwSecond emptyDCache c2Address
    c2ItemNoName c2ItemNamed "Gold" (by decide) rfl rfl rfl (Or.inl rfl) rfl rfl rfl
    (by decide)

/-- Claim C10: when the details response omits a requested, uncached
address, the metadata map has no entry for it at all (no null
placeholder, no error — the resolver is total), and the merged holdings
`getAccountFungibles` builds for that resource carry no metadata
(`meta = none`: the spread of an absent record adds no fields). -/
theorem c10_omitted_address_no_entry (now fuel : Nat)
    (gwPages : FungPageRequest → FungPage)
    (gwDetails : EntityDetailsRequest → List MetaItem)
    (scache : KVCache (List MergedHolding)) (dcache : DCache)
    (accountAddress addr : String) (items : List Holding)
    (pageReqs : List FungPageRequest)
    (hmiss_s : (cacheGet now scache ("fungibles:" ++ accountAddress)).1 = none)
    (hloop : fungFetchLoop gwPages accountAddress fuel none = some (items, pageReqs))
    (hmiss_d : (dcacheGet now dcache ("resource:" ++ addr)).1 = none)
    (hresp : ∀ req ∈ (getResourceMetadata now gwDetails dcache
        (items.map (·.resourceAddress))).2.2,
      ∀ it ∈ gwDetails req, it.address ≠ addr) :
    (getResourceMetadata now gwDetails dcache (items.map (·.resourceAddress))).1 addr =
      none ∧
    ∀ result sc2 dc2 pr mr,
      getAccountFungibles now fuel gwPages gwDetails scache dcache accountAddress =
        some (result, sc2, dc2, pr, mr) →
      ∀ mh ∈ result, mh.resourceAddress = addr → mh.meta = none := by
  have habs := getResourceMetadata_absent now gwDetails dcache
    (items.map (·.resourceAddress)) addr hmiss_d hresp
  refine ⟨habs, ?_⟩
  intro result sc2 dc2 pr mr hga mh hmh hmaddr
  simp only [getAccountFungibles, hmiss_s, hloop] at hga
  injection hga with htup
  have hres : result = items.map (fun it =>
      MergedHolding.mk it.resourceAddress it.amount
        ((getResourceMetadata now gwDetails dcache (items.map (·.resourceAddress))).1
          it.resourceAddress)) := (congrArg Prod.fst htup).symm
  subst hres
  rw [List.mem_map] at hmh
  obtain ⟨it, hit, rfl⟩ := hmh
  have ha : it.resourceAddress = addr := hmaddr
  show (getResourceMetadata now gwDetails dcache
    (items.map (·.resourceAddress))).1 it.resourceAddress = none
  rw [ha]
  exact habs

/-- Witness for C10 at a concrete single-page account whose details
response omits the only resource. -/
theorem c10_witness :
    (getResourceMetadata 0 c10GwDetails emptyDCache
      ([(⟨"res_x", "5"⟩ : Holding)].map (·.resourceAddress))).1 "res_x" = none :=
  (c10_omitted_address_no_entry 0 1 c10GwPages c10GwDetails
    (emptyCache (List MergedHolding)) emptyDCache "acct" "res_x"
    [⟨"res_x", "5"⟩] [⟨"acct", "Global", none⟩] rfl rfl rfl
    (by intro req hreq it hit; simp [c10GwDetails] at hit)).1
